import Mathlib

/-!
Shallow embedding of the access-grant ledger implemented in
src/Heady/HeadyAcademy/Tools/Heady_Chain.py (the effective definitions at
lines 786-860: the six-field persistence codec and the difficulty-2 miner).

The SHA-256 hex digest (hashlib.sha256(...).hexdigest()) is kept abstract:
every definition is parameterized over a digest function H : String → String.
The unbounded Python mining loop is modelled with explicit fuel; a result of
none means the loop had not yet terminated within the fuel bound.
-/

/-- One ledger entry, mirroring class Block: the five content fields plus the
cached digest. -/
structure Block where
  index : Nat
  timestamp : String
  data : String
  prev_hash : String
  nonce : Nat
  hash : String
deriving Repr, DecidableEq

/-- The canonical string hashed by Block.compute_hash:
f"{index}{timestamp}{data}{prev_hash}{nonce}". -/
def hashInput (index : Nat) (ts d ph : String) (nonce : Nat) : String :=
  toString index ++ ts ++ d ++ ph ++ toString nonce

/-- Block.compute_hash: digest of the five content fields in fixed order. -/
def Block.compute_hash (H : String → String) (b : Block) : String :=
  H (hashInput b.index b.timestamp b.data b.prev_hash b.nonce)

/-- Block.__init__(index, timestamp, data, prev_hash): nonce starts at 0 and
hash is the digest of the freshly set fields. -/
def Block.init (H : String → String) (index : Nat) (ts d ph : String) : Block :=
  { index := index, timestamp := ts, data := d, prev_hash := ph, nonce := 0,
    hash := H (hashInput index ts d ph 0) }

/-- Python str.startswith(pre), as a prefix test on the character lists. -/
def pyStartsWith (s pre : String) : Bool :=
  pre.data.isPrefixOf s.data

/-- Python "0" * difficulty, the mining target string. -/
def target (difficulty : Nat) : String :=
  String.mk (List.replicate difficulty '0')

/-- Block.mine(difficulty): while not hash.startswith(target): nonce += 1;
hash = compute_hash().  Fuel bounds the number of loop iterations; none
means the loop was still running when the fuel ran out. -/
def Block.mine (H : String → String) (difficulty : Nat) : Nat → Block → Option Block
  | 0, b => if pyStartsWith b.hash (target difficulty) then some b else none
  | fuel + 1, b =>
    if pyStartsWith b.hash (target difficulty) then some b
    else
      Block.mine H difficulty fuel
        { b with nonce := b.nonce + 1,
                 hash := H (hashInput b.index b.timestamp b.data b.prev_hash (b.nonce + 1)) }

/-- One persisted JSON record: a dict that may or may not carry each of the
six keys (load reads the first four with b[k] — KeyError when absent — and
the last two with b.get(k, default)). -/
structure Record where
  index : Option Nat
  timestamp : Option String
  data : Option String
  prev_hash : Option String
  nonce : Option Nat
  hash : Option String
deriving Repr, DecidableEq

/-- HeadyChain.save: vars(b) for each block, all six fields present. -/
def encodeBlock (b : Block) : Record :=
  { index := some b.index, timestamp := some b.timestamp, data := some b.data,
    prev_hash := some b.prev_hash, nonce := some b.nonce, hash := some b.hash }

/-- HeadyChain.save over the whole chain, in chain order. -/
def HeadyChain.save (c : List Block) : List Record :=
  c.map encodeBlock

/-- The loop body of HeadyChain.load: Block(b['index'], b['timestamp'],
b['data'], b['prev_hash']), then block.nonce = b.get('nonce', 0), then
block.hash = b.get('hash', block.compute_hash()).  A missing required key
(KeyError) is none. -/
def decodeRecord (H : String → String) (r : Record) : Option Block :=
  match r.index, r.timestamp, r.data, r.prev_hash with
  | some i, some ts, some d, some ph =>
    let b0 := Block.init H i ts d ph
    let b1 := { b0 with nonce := r.nonce.getD 0 }
    some { b1 with hash := r.hash.getD (b1.compute_hash H) }
  | _, _, _, _ => none

/-- The whole load loop: the first undecodable record aborts the load
(the KeyError propagates out of the try block). -/
def decodeAll (H : String → String) : List Record → Option (List Block)
  | [] => some []
  | r :: rs =>
    match decodeRecord H r, decodeAll H rs with
    | some b, some bs => some (b :: bs)
    | _, _ => none

/-- The genesis block appended by HeadyChain.gen:
Block(0, timestamp, "Genesis", "0"). -/
def genBlock (H : String → String) (ts : String) : Block :=
  Block.init H 0 ts "Genesis" "0"

/-- The state of the persisted chain_head.json file. -/
inductive FileState
  | missing
  | unparseable
  | parsed (recs : List Record)
deriving Repr, DecidableEq

/-- Result of HeadyChain.load: the except branch ran gen() (chain reset to a
fresh genesis, which save() writes back); or the file decoded and the chain
was taken as stored; or an exception outside the except clause (KeyError on
a record) escaped. -/
inductive LoadResult
  | fallback (c : List Block) (fs : FileState)
  | loaded (c : List Block)
  | crashed
deriving Repr, DecidableEq

/-- HeadyChain.load: a missing file (FileNotFoundError) or an unparseable
file (json.JSONDecodeError) is caught and answered by gen(); a parseable
file is decoded record by record, and a record missing a required key
raises an uncaught KeyError. -/
def HeadyChain.load (H : String → String) (ts : String) : FileState → LoadResult
  | .missing => .fallback [genBlock H ts] (.parsed (HeadyChain.save [genBlock H ts]))
  | .unparseable => .fallback [genBlock H ts] (.parsed (HeadyChain.save [genBlock H ts]))
  | .parsed recs =>
    match decodeAll H recs with
    | some bs => .loaded bs
    | none => .crashed

/-- Result of HeadyChain.add. -/
inductive AddOutcome
  | indexError
  | noFuel
  | ok (c : List Block)
deriving Repr, DecidableEq

/-- HeadyChain.add(r, u): p = chain[-1] (IndexError on an empty chain);
b = Block(p.index + 1, timestamp, f"{r}:{u}", p.hash); b.mine() at the
default difficulty 2; chain.append(b). -/
def HeadyChain.add (H : String → String) (fuel : Nat) (c : List Block)
    (ts r u : String) : AddOutcome :=
  match c.getLast? with
  | none => .indexError
  | some p =>
    match Block.mine H 2 fuel (Block.init H (p.index + 1) ts (r ++ ":" ++ u) p.hash) with
    | some b => .ok (c ++ [b])
    | none => .noFuel

/-- Python substring containment: f"{r}:{u}" in b.data. -/
def pyIn (pat s : String) : Bool :=
  decide (pat.data <:+: s.data)

/-- The scan inside HeadyChain.verify: walk the given order, return True on
the first block whose data contains the pattern. -/
def verifyScan (pat : String) : List Block → Bool
  | [] => false
  | b :: rest => if pyIn pat b.data then true else verifyScan pat rest

/-- HeadyChain.verify(r, u): scan reversed(self.chain) for a block whose
data contains f"{r}:{u}". -/
def HeadyChain.verify (c : List Block) (r u : String) : Bool :=
  verifyScan (r ++ ":" ++ u) c.reverse

/-- The state of the ledger directory on disk. -/
inductive Disk
  | absentDir
  | dirWith (fs : FileState)
deriving Repr, DecidableEq

/-- Result of HeadyChain.__init__. -/
inductive InitOutcome
  | ok (c : List Block) (d : Disk)
  | crashed (d : Disk)
deriving Repr, DecidableEq

/-- HeadyChain.__init__: if the ledger directory does not exist, create it
and run gen() (append a genesis block and save); otherwise run load(). -/
def HeadyChain.initLedger (H : String → String) (ts : String) : Disk → InitOutcome
  | .absentDir =>
    .ok [genBlock H ts] (.dirWith (.parsed (HeadyChain.save [genBlock H ts])))
  | .dirWith fs =>
    match HeadyChain.load H ts fs with
    | .fallback c fs1 => .ok c (.dirWith fs1)
    | .loaded c => .ok c (.dirWith fs)
    | .crashed => .crashed (.dirWith fs)

/-- Observable outcome of one CLI invocation (the __main__ block at lines
851-860): construction may crash; otherwise exactly one of the usage
message, a grant, a verify, or the invalid-command message happens. -/
inductive CliOutcome
  | crashedInit (d : Disk)
  | usage (d : Disk)
  | granted (c : List Block) (d : Disk)
  | grantNoFuel (d : Disk)
  | opCrashed (d : Disk)
  | verified (res : Bool) (d : Disk)
  | invalid (d : Disk)
deriving Repr, DecidableEq

/-- The __main__ block: hc = HeadyChain() runs first; then the argument
checks dispatch on sys.argv (args includes the program name at position 0).
A successful grant persists the grown chain (add calls save). -/
def cliMain (H : String → String) (ts : String) (fuel : Nat)
    (args : List String) (d : Disk) : CliOutcome :=
  match HeadyChain.initLedger H ts d with
  | .crashed d1 => .crashedInit d1
  | .ok c d1 =>
    if args.length < 2 then .usage d1
    else if args.getD 1 "" = "grant" ∧ 4 ≤ args.length then
      match HeadyChain.add H fuel c ts (args.getD 2 "") (args.getD 3 "") with
      | .ok c1 => .granted c1 (.dirWith (.parsed (HeadyChain.save c1)))
      | .noFuel => .grantNoFuel d1
      | .indexError => .opCrashed d1
    else if args.getD 1 "" = "verify" ∧ 4 ≤ args.length then
      .verified (HeadyChain.verify c (args.getD 2 "") (args.getD 3 "")) d1
    else .invalid d1

/-- Ledger states reachable from a fresh initialization (genesis) by
completed add calls. -/
inductive Reachable (H : String → String) : List Block → Prop
  | genesis (ts : String) : Reachable H [genBlock H ts]
  | step (c c' : List Block) (fuel : Nat) (ts r u : String) :
      Reachable H c → HeadyChain.add H fuel c ts r u = .ok c' → Reachable H c'

/-- The linkage relation between consecutive blocks. -/
def LinkRel (a b : Block) : Prop :=
  b.prev_hash = a.hash ∧ b.index = a.index + 1

/-- A digest function used to instantiate witnesses: every input hashes to
"00", so mining succeeds at nonce 0. -/
def demoDigest : String → String :=
  fun _ => "00"

/-! ### Mining lemmas -/

/-- A completed mine call changes only nonce and hash: the four content
fields survive, and the resulting hash meets the target. -/
theorem mine_some_fields (H : String → String) (diff : Nat) :
    ∀ (fuel : Nat) (b b' : Block), Block.mine H diff fuel b = some b' →
      b'.index = b.index ∧ b'.timestamp = b.timestamp ∧ b'.data = b.data ∧
        b'.prev_hash = b.prev_hash ∧ pyStartsWith b'.hash (target diff) = true
  | 0, b, b', h => by
    unfold Block.mine at h
    split at h
    · rename_i hc
      cases h
      exact ⟨rfl, rfl, rfl, rfl, hc⟩
    · cases h
  | fuel + 1, b, b', h => by
    unfold Block.mine at h
    split at h
    · rename_i hc
      cases h
      exact ⟨rfl, rfl, rfl, rfl, hc⟩
    · have ih := mine_some_fields H diff fuel _ _ h
      simpa using ih

/-- Mining preserves the sealing invariant hash = compute_hash(fields). -/
theorem mine_some_hash_inv (H : String → String) (diff : Nat) :
    ∀ (fuel : Nat) (b b' : Block), b.hash = b.compute_hash H →
      Block.mine H diff fuel b = some b' → b'.hash = b'.compute_hash H
  | 0, b, b', hinv, h => by
    unfold Block.mine at h
    split at h
    · cases h; exact hinv
    · cases h
  | fuel + 1, b, b', hinv, h => by
    unfold Block.mine at h
    split at h
    · cases h; exact hinv
    · exact mine_some_hash_inv H diff fuel _ _ rfl h

/-- The shape of a successful add: the chain grows by one block carrying the
parent link, the incremented index, the grant payload, a target-meeting hash,
and the sealing invariant. -/
theorem add_ok_shape (H : String → String) (fuel : Nat) (c : List Block)
    (ts r u : String) (c' : List Block)
    (h : HeadyChain.add H fuel c ts r u = .ok c') :
    ∃ p b, c.getLast? = some p ∧ c' = c ++ [b] ∧
      b.prev_hash = p.hash ∧ b.index = p.index + 1 ∧ b.data = r ++ ":" ++ u ∧
      pyStartsWith b.hash (target 2) = true ∧ b.hash = b.compute_hash H := by
  unfold HeadyChain.add at h
  split at h
  · cases h
  · rename_i p hgl
    split at h
    · rename_i b hm
      cases h
      have hf := mine_some_fields H 2 fuel _ _ hm
      have hh := mine_some_hash_inv H 2 fuel _ _ rfl hm
      exact ⟨p, b, hgl, rfl, hf.2.2.2.1, hf.1, hf.2.2.1, hf.2.2.2.2, hh⟩
    · cases h

/-- The joint invariant of reachable states: consecutive blocks are linked,
and every block after the head meets the difficulty-2 target. -/
theorem reachable_inv (H : String → String) (c : List Block) (hr : Reachable H c) :
    List.Chain' LinkRel c ∧
      ∀ i (hi : i < c.length), 0 < i →
        pyStartsWith (c.get ⟨i, hi⟩).hash (target 2) = true := by
  induction hr with
  | genesis ts =>
    refine ⟨List.chain'_singleton _, ?_⟩
    intro i hi h0
    simp at hi
    omega
  | step c c' fuel ts r u hrc hadd ih =>
    obtain ⟨p, b, hgl, rfl, hpb, hib, hdb, hpow, hhash⟩ :=
      add_ok_shape H fuel c ts r u c' hadd
    constructor
    · rw [List.chain'_append]
      refine ⟨ih.1, List.chain'_singleton _, ?_⟩
      intro x hx y hy
      simp only [List.head?_cons, Option.mem_def, Option.some.injEq] at hy
      rw [hgl] at hx
      simp only [Option.mem_def, Option.some.injEq] at hx
      subst hx
      subst hy
      exact ⟨hpb, hib⟩
    · intro i hi h0
      simp only [List.get_eq_getElem]
      by_cases hlt : i < c.length
      · rw [List.getElem_append_left hlt]
        have := ih.2 i hlt h0
        simpa using this
      · have hieq : i = c.length := by
          simp only [List.length_append, List.length_singleton] at hi
          omega
        rw [List.getElem_concat_length _ _ _ hieq]
        exact hpow

/-! ### Lookup lemmas -/

/-- The early-return scan equals an any-fold over the same order. -/
theorem verifyScan_eq_any (pat : String) :
    ∀ l : List Block, verifyScan pat l = l.any fun b => pyIn pat b.data
  | [] => rfl
  | b :: rest => by
    unfold verifyScan
    cases h : pyIn pat b.data <;>
      simp [h, verifyScan_eq_any pat rest]

/-- verify is a function of the ordered data payloads alone. -/
theorem verify_eq_data_any (c : List Block) (r u : String) :
    HeadyChain.verify c r u =
      (c.map Block.data).any fun d => pyIn (r ++ ":" ++ u) d := by
  unfold HeadyChain.verify
  rw [verifyScan_eq_any, List.any_reverse]
  induction c with
  | nil => rfl
  | cons b bs ih => simp [ih]

/-! ### Round-trip lemmas -/

/-- Decoding a record written by save restores the block exactly, the stored
hash taken as-is. -/
theorem decode_encode (H : String → String) (b : Block) :
    decodeRecord H (encodeBlock b) = some b := by
  cases b
  rfl

/-- Decoding a whole saved chain restores it exactly. -/
theorem decodeAll_save (H : String → String) :
    ∀ c : List Block, decodeAll H (HeadyChain.save c) = some c
  | [] => rfl
  | b :: bs => by
    show decodeAll H (encodeBlock b :: HeadyChain.save bs) = some (b :: bs)
    unfold decodeAll
    rw [decode_encode H b, decodeAll_save H bs]

/-! ### Concrete material for witnesses -/

/-- The genesis block under the demo digest. -/
def demoGen : Block := genBlock demoDigest "t"

/-- The block add appends for grant("editor", "bob") under the demo digest
(mining succeeds at nonce 0 because every digest is "00"). -/
def demoB1 : Block := Block.init demoDigest 1 "t2" "editor:bob" "00"

/-- The two-block chain reached by one grant("editor", "bob"). -/
def demoChain2 : List Block := [demoGen, demoB1]

/-- demoChain2 is reachable: genesis followed by one completed add. -/
theorem demoChain2_reachable : Reachable demoDigest demoChain2 :=
  Reachable.step [demoGen] demoChain2 0 "t2" "editor" "bob"
    (@Reachable.genesis demoDigest "t") (by decide)

/-- A record missing the required index key (KeyError on load). -/
def badRecord : Record :=
  { index := none, timestamp := some "t", data := some "x",
    prev_hash := some "0", nonce := none, hash := none }

/-! ### Claim theorems -/

/-- C1: Chain linkage invariant: in every reachable ledger state (after
initialization and any sequence of add calls), for every index i > 0,
chain[i].prev_hash equals chain[i-1].hash and chain[i].index equals
chain[i-1].index + 1. -/
theorem chain_linkage_invariant (H : String → String) (c : List Block)
    (hr : Reachable H c) (i : Nat) (h0 : 0 < i) (hi : i < c.length) :
    (c.get ⟨i, hi⟩).prev_hash = (c.get ⟨i - 1, by omega⟩).hash ∧
    (c.get ⟨i, hi⟩).index = (c.get ⟨i - 1, by omega⟩).index + 1 := by
  have hch := (reachable_inv H c hr).1
  rw [List.chain'_iff_get] at hch
  have hlt : i - 1 < c.length - 1 := by omega
  have h := hch (i - 1) hlt
  have hieq : i - 1 + 1 = i := by omega
  simp only [hieq] at h
  exact h

/-- Witness for C1 at the concrete chain genesis → grant("editor", "bob")
under the demo digest, at index 1. -/
theorem chain_linkage_invariant_witness :
    (demoChain2.get ⟨1, by decide⟩).prev_hash = (demoChain2.get ⟨0, by decide⟩).hash ∧
    (demoChain2.get ⟨1, by decide⟩).index = (demoChain2.get ⟨0, by decide⟩).index + 1 :=
  chain_linkage_invariant demoDigest demoChain2 demoChain2_reachable 1
    (by decide) (by decide)

/-- C5: Proof-of-work predicate at difficulty 2: in every reachable state,
every non-genesis block (every block appended by a completed add) has a hash
whose leading 2 characters are "00". -/
theorem pow_invariant (H : String → String) (c : List Block)
    (hr : Reachable H c) (i : Nat) (h0 : 0 < i) (hi : i < c.length) :
    pyStartsWith (c.get ⟨i, hi⟩).hash "00" = true := by
  have h := (reachable_inv H c hr).2 i hi h0
  have ht : target 2 = "00" := rfl
  rwa [ht] at h

/-- Witness for C5: the block mined by grant("editor", "bob") on a
genesis-only ledger has a hash starting with "00". -/
theorem pow_invariant_witness :
    pyStartsWith (demoChain2.get ⟨1, by decide⟩).hash "00" = true :=
  pow_invariant demoDigest demoChain2 demoChain2_reachable 1 (by decide) (by decide)

/-- C6: Append monotonicity: a completed add(role, user) grows the chain by
exactly one block, and the new tail's data is "role:user". -/
theorem add_append_monotonic (H : String → String) (fuel : Nat)
    (c : List Block) (ts r u : String) (c' : List Block)
    (h : HeadyChain.add H fuel c ts r u = .ok c') :
    c'.length = c.length + 1 ∧ ∃ b, c'.getLast? = some b ∧ b.data = r ++ ":" ++ u := by
  obtain ⟨p, b, hgl, rfl, hpb, hib, hdb, hpow, hhash⟩ :=
    add_ok_shape H fuel c ts r u c' h
  exact ⟨by simp, b, List.getLast?_concat c, hdb⟩

/-- Witness for C6 at grant("editor", "bob") on the genesis-only ledger. -/
theorem add_append_monotonic_witness :
    demoChain2.length = [demoGen].length + 1 ∧
      ∃ b, demoChain2.getLast? = some b ∧ b.data = "editor" ++ ":" ++ "bob" :=
  add_append_monotonic demoDigest 0 [demoGen] "t2" "editor" "bob" demoChain2
    (by decide)

/-- C2: verify(role, user) is true iff some block's data contains the literal
substring "role:user"; the result is a function of the stored data payloads
only, so after only grant("admin", "alice") the query verify("adm", "alice")
is false. -/
theorem verify_substring_semantics (c : List Block) (r u : String) :
    (HeadyChain.verify c r u = true ↔
      ∃ b ∈ c, (r ++ ":" ++ u).data <:+: b.data.data) ∧
    (c.map Block.data = ["Genesis", "admin:alice"] →
      HeadyChain.verify c "adm" "alice" = false) := by
  constructor
  · rw [verify_eq_data_any, List.any_eq_true]
    simp only [pyIn, decide_eq_true_eq, List.mem_map]
    constructor
    · rintro ⟨d, ⟨b, hb, rfl⟩, hsub⟩
      exact ⟨b, hb, hsub⟩
    · rintro ⟨b, hb, hsub⟩
      exact ⟨b.data, ⟨b, hb, rfl⟩, hsub⟩
  · intro hmap
    rw [verify_eq_data_any, hmap]
    decide

/-- Witness for C2 at a concrete chain holding only the payloads "Genesis"
and "admin:alice". -/
theorem verify_substring_semantics_witness :
    HeadyChain.verify [demoGen, Block.init demoDigest 1 "t2" "admin:alice" "00"]
      "adm" "alice" = false :=
  (verify_substring_semantics
    [demoGen, Block.init demoDigest 1 "t2" "admin:alice" "00"] "adm" "alice").2
    (by decide)

/-- C3: Persistence round-trip: saving any chain and loading it back yields
the identical ordered sequence of (index, timestamp, data, prev_hash, nonce,
hash) tuples, each stored hash taken as-is. -/
theorem save_load_roundtrip (H : String → String) (ts : String) (c : List Block) :
    HeadyChain.load H ts (FileState.parsed (HeadyChain.save c)) =
      LoadResult.loaded c := by
  simp only [HeadyChain.load, decodeAll_save]

/-- C7: Genesis invariant: initializing against an absent storage location
yields exactly one block with index 0, prev_hash "0", data "Genesis", and
this block is persisted as built (nonce still 0, hash the plain digest of
the fields, no proof-of-work imposed). -/
theorem genesis_invariant (H : String → String) (ts : String) :
    HeadyChain.initLedger H ts Disk.absentDir =
      InitOutcome.ok [genBlock H ts]
        (Disk.dirWith (FileState.parsed (HeadyChain.save [genBlock H ts]))) ∧
    (genBlock H ts).index = 0 ∧ (genBlock H ts).prev_hash = "0" ∧
    (genBlock H ts).data = "Genesis" ∧ (genBlock H ts).nonce = 0 ∧
    (genBlock H ts).hash = Block.compute_hash H (genBlock H ts) :=
  ⟨rfl, rfl, rfl, rfl, rfl, rfl⟩

/-- C8: Hash determinism: compute_hash is a function of exactly the five
content fields; a freshly constructed block's hash is the digest of its
current fields; and mining preserves that sealing equation, so recomputing
compute_hash over a sealed block's fields reproduces its hash. -/
theorem hash_determinism (H : String → String) (b1 b2 : Block)
    (i : Nat) (ts d ph : String) :
    (b1.index = b2.index → b1.timestamp = b2.timestamp → b1.data = b2.data →
      b1.prev_hash = b2.prev_hash → b1.nonce = b2.nonce →
      Block.compute_hash H b1 = Block.compute_hash H b2) ∧
    (Block.init H i ts d ph).hash = Block.compute_hash H (Block.init H i ts d ph) ∧
    (∀ diff fuel b b', b.hash = Block.compute_hash H b →
      Block.mine H diff fuel b = some b' → b'.hash = Block.compute_hash H b') := by
  refine ⟨?_, rfl, fun diff fuel b b' hb hm => mine_some_hash_inv H diff fuel b b' hb hm⟩
  intro h1 h2 h3 h4 h5
  unfold Block.compute_hash
  rw [h1, h2, h3, h4, h5]

/-- Witness for C8 at concrete blocks under the demo digest. -/
theorem hash_determinism_witness :
    Block.compute_hash demoDigest demoGen = Block.compute_hash demoDigest demoGen ∧
    demoB1.hash = Block.compute_hash demoDigest demoB1 :=
  ⟨(hash_determinism demoDigest demoGen demoGen 1 "t2" "x" "00").1
      rfl rfl rfl rfl rfl,
   (hash_determinism demoDigest demoGen demoGen 1 "t2" "editor:bob" "00").2.2
      2 0 demoB1 demoB1 rfl (by decide)⟩

/-- C4 counterexample: a file that parses (so json.JSONDecodeError is not
raised) but whose single record lacks the required index key makes load
raise an uncaught KeyError: no fallback to genesis happens, refuting the
claim that any failed deserialization falls back. -/
theorem load_unreadable_record_crashes :
    HeadyChain.load demoDigest "t" (FileState.parsed [badRecord]) =
      LoadResult.crashed ∧
    HeadyChain.load demoDigest "t" (FileState.parsed [badRecord]) ≠
      LoadResult.fallback [genBlock demoDigest "t"]
        (FileState.parsed (HeadyChain.save [genBlock demoDigest "t"])) :=
  ⟨rfl, by decide⟩

/-- C4 amended: the fallback to a single fresh genesis (which also
overwrites the file) happens exactly for a missing or unparseable file; a
parseable file that decodes is loaded as stored, and a parseable file with
an unreadable record raises an uncaught error with no fallback. -/
theorem load_fallback_behavior (H : String → String) (ts : String)
    (recs : List Record) (bs : List Block) :
    HeadyChain.load H ts FileState.missing =
      LoadResult.fallback [genBlock H ts]
        (FileState.parsed (HeadyChain.save [genBlock H ts])) ∧
    HeadyChain.load H ts FileState.unparseable =
      LoadResult.fallback [genBlock H ts]
        (FileState.parsed (HeadyChain.save [genBlock H ts])) ∧
    (decodeAll H recs = some bs →
      HeadyChain.load H ts (FileState.parsed recs) = LoadResult.loaded bs) ∧
    (decodeAll H recs = none →
      HeadyChain.load H ts (FileState.parsed recs) = LoadResult.crashed) := by
  refine ⟨rfl, rfl, fun h => ?_, fun h => ?_⟩
  · simp only [HeadyChain.load, h]
  · simp only [HeadyChain.load, h]

/-- Witness for C4's amended statement: a decodable file loads as stored and
a file with an unreadable record crashes. -/
theorem load_fallback_behavior_witness :
    HeadyChain.load demoDigest "t" (FileState.parsed (HeadyChain.save [demoGen])) =
      LoadResult.loaded [demoGen] ∧
    HeadyChain.load demoDigest "t" (FileState.parsed [badRecord]) =
      LoadResult.crashed :=
  ⟨(load_fallback_behavior demoDigest "t" (HeadyChain.save [demoGen]) [demoGen]).2.2.1
      (by decide),
   (load_fallback_behavior demoDigest "t" [badRecord] []).2.2.2 rfl⟩

/-- C10: a persisted file parsing as an empty JSON list is accepted by load
with no genesis fallback, leaving a chain of length 0, and add on that state
hits the IndexError from chain[-1] instead of appending. -/
theorem empty_file_load_and_add (H : String → String) (ts : String)
    (fuel : Nat) (r u : String) :
    HeadyChain.load H ts (FileState.parsed []) = LoadResult.loaded [] ∧
    ([] : List Block).length = 0 ∧
    HeadyChain.add H fuel [] ts r u = AddOutcome.indexError :=
  ⟨rfl, rfl, rfl⟩

/-- C9 counterexample: invoking the CLI with no verb against an absent
ledger directory prints only the usage message, yet the ledger state on disk
changes: HeadyChain() runs before the argument check and creates and
persists a fresh genesis. -/
theorem cli_missing_verb_mutates_disk :
    cliMain demoDigest "t" 0 ["Heady_Chain.py"] Disk.absentDir =
      CliOutcome.usage
        (Disk.dirWith (FileState.parsed (HeadyChain.save [genBlock demoDigest "t"]))) ∧
    Disk.dirWith (FileState.parsed (HeadyChain.save [genBlock demoDigest "t"])) ≠
      Disk.absentDir :=
  ⟨rfl, by decide⟩

/-- When the ledger construction succeeds, an argument vector that is too
short for any verb dispatches to the usage message (below two entries) or to
the invalid-command message (below four entries, whatever the verb, so in
particular grant or verify missing role or user): no grant and no verify
runs, and the disk stays as construction left it. -/
theorem cli_no_op_dispatch (H : String → String) (ts : String) (fuel : Nat)
    (args : List String) (d d1 : Disk) (c : List Block)
    (hinit : HeadyChain.initLedger H ts d = InitOutcome.ok c d1) :
    (args.length < 2 → cliMain H ts fuel args d = CliOutcome.usage d1) ∧
    (2 ≤ args.length → args.length < 4 →
      cliMain H ts fuel args d = CliOutcome.invalid d1) := by
  constructor
  · intro h2
    simp only [cliMain, hinit, if_pos h2]
  · intro h2 h4
    have hn2 : ¬ args.length < 2 := by omega
    have hng : ¬ (args.getD 1 "" = "grant" ∧ 4 ≤ args.length) := by
      rintro ⟨-, hh⟩
      omega
    have hnv : ¬ (args.getD 1 "" = "verify" ∧ 4 ≤ args.length) := by
      rintro ⟨-, hh⟩
      omega
    simp only [cliMain, hinit, if_neg hn2, if_neg hng, if_neg hnv]

/-- C9 amended: with a missing verb or missing role/user (fewer than four
argv entries, any verb, in particular grant or verify) the CLI prints the
usage or invalid-command message and performs no grant and no verify, and
the disk is unchanged when the existing file decodes; but the ledger
construction runs before the argument check, so such an invocation against
an absent directory still creates and persists a fresh genesis, and a
missing or unparseable file is still overwritten by the fallback genesis. -/
theorem cli_missing_args_behavior (H : String → String) (ts : String)
    (fuel : Nat) (args : List String) (recs : List Record) (bs : List Block)
    (hdec : decodeAll H recs = some bs) (hlen : args.length < 4) :
    (args.length < 2 →
      cliMain H ts fuel args (Disk.dirWith (FileState.parsed recs)) =
        CliOutcome.usage (Disk.dirWith (FileState.parsed recs)) ∧
      cliMain H ts fuel args Disk.absentDir =
        CliOutcome.usage
          (Disk.dirWith (FileState.parsed (HeadyChain.save [genBlock H ts]))) ∧
      cliMain H ts fuel args (Disk.dirWith FileState.missing) =
        CliOutcome.usage
          (Disk.dirWith (FileState.parsed (HeadyChain.save [genBlock H ts]))) ∧
      cliMain H ts fuel args (Disk.dirWith FileState.unparseable) =
        CliOutcome.usage
          (Disk.dirWith (FileState.parsed (HeadyChain.save [genBlock H ts])))) ∧
    (2 ≤ args.length →
      cliMain H ts fuel args (Disk.dirWith (FileState.parsed recs)) =
        CliOutcome.invalid (Disk.dirWith (FileState.parsed recs)) ∧
      cliMain H ts fuel args Disk.absentDir =
        CliOutcome.invalid
          (Disk.dirWith (FileState.parsed (HeadyChain.save [genBlock H ts]))) ∧
      cliMain H ts fuel args (Disk.dirWith FileState.missing) =
        CliOutcome.invalid
          (Disk.dirWith (FileState.parsed (HeadyChain.save [genBlock H ts]))) ∧
      cliMain H ts fuel args (Disk.dirWith FileState.unparseable) =
        CliOutcome.invalid
          (Disk.dirWith (FileState.parsed (HeadyChain.save [genBlock H ts])))) := by
  have hinit1 : HeadyChain.initLedger H ts (Disk.dirWith (FileState.parsed recs)) =
      InitOutcome.ok bs (Disk.dirWith (FileState.parsed recs)) := by
    simp only [HeadyChain.initLedger, HeadyChain.load, hdec]
  have h1 := cli_no_op_dispatch H ts fuel args _ _ bs hinit1
  have h2 := cli_no_op_dispatch H ts fuel args Disk.absentDir _ [genBlock H ts] rfl
  have h3 := cli_no_op_dispatch H ts fuel args (Disk.dirWith FileState.missing) _
    [genBlock H ts] rfl
  have h4 := cli_no_op_dispatch H ts fuel args (Disk.dirWith FileState.unparseable) _
    [genBlock H ts] rfl
  exact ⟨fun hl => ⟨h1.1 hl, h2.1 hl, h3.1 hl, h4.1 hl⟩,
    fun hl => ⟨h1.2 hl hlen, h2.2 hl hlen, h3.2 hl hlen, h4.2 hl hlen⟩⟩

/-- Witness for C9's amended statement: a bare invocation against a
decodable stored chain, a verify missing its user against the same chain, a
grant missing its user against an absent directory, and a verify missing
its user against a missing file. -/
theorem cli_missing_args_behavior_witness :
    cliMain demoDigest "t" 0 ["Heady_Chain.py"]
        (Disk.dirWith (FileState.parsed (HeadyChain.save [demoGen]))) =
      CliOutcome.usage (Disk.dirWith (FileState.parsed (HeadyChain.save [demoGen]))) ∧
    cliMain demoDigest "t" 0 ["Heady_Chain.py", "verify", "editor"]
        (Disk.dirWith (FileState.parsed (HeadyChain.save [demoGen]))) =
      CliOutcome.invalid (Disk.dirWith (FileState.parsed (HeadyChain.save [demoGen]))) ∧
    cliMain demoDigest "t" 0 ["Heady_Chain.py", "grant", "editor"] Disk.absentDir =
      CliOutcome.invalid
        (Disk.dirWith (FileState.parsed (HeadyChain.save [genBlock demoDigest "t"]))) ∧
    cliMain demoDigest "t" 0 ["Heady_Chain.py", "verify", "bob"]
        (Disk.dirWith FileState.missing) =
      CliOutcome.invalid
        (Disk.dirWith (FileState.parsed (HeadyChain.save [genBlock demoDigest "t"]))) :=
  ⟨((cli_missing_args_behavior demoDigest "t" 0 ["Heady_Chain.py"]
      (HeadyChain.save [demoGen]) [demoGen] (by decide) (by decide)).1 (by decide)).1,
   ((cli_missing_args_behavior demoDigest "t" 0 ["Heady_Chain.py", "verify", "editor"]
      (HeadyChain.save [demoGen]) [demoGen] (by decide) (by decide)).2 (by decide)).1,
   ((cli_missing_args_behavior demoDigest "t" 0 ["Heady_Chain.py", "grant", "editor"]
      (HeadyChain.save [demoGen]) [demoGen] (by decide) (by decide)).2 (by decide)).2.1,
   ((cli_missing_args_behavior demoDigest "t" 0 ["Heady_Chain.py", "verify", "bob"]
      (HeadyChain.save [demoGen]) [demoGen] (by decide) (by decide)).2 (by decide)).2.2.1⟩
